import Mathlib

/-!
Verification of the `rust-book-brown-notes` repository's specification.

Shallow embeddings of:
* `src/hello-web/src/lib.rs` — the bounded worker pool (`ThreadPool`,
  `Worker`, construction, submission, teardown), plus an operational
  small-step model of the job channel and the worker loops;
* `src/oop_blog/src/lib.rs` — the dynamically-dispatched blog post state
  machine (`Post`, `State`, `Draft`, `PendingReview`, `Published`);
* `src/types_blog/src/lib.rs` — the type-state blog post
  (`DraftPost`, `PendingReviewPost`, `MaybeApproved`, `Post`).

Machine integers that matter (`approvals: u8`) only ever take the values
0 and 1 on reachable states; they are modelled as `Nat` with the same
comparisons the source makes.  Panics (`assert!`, `expect`, `unwrap`) are
modelled as explicit error outcomes, since a panic aborts the surrounding
computation.
-/

namespace OopBlog

/-- The three concrete implementors of the `State` trait in
`src/oop_blog/src/lib.rs`: `Draft`, `PendingReview { approvals: u8 }`,
`Published`. -/
inductive State where
  | draft : State
  | pendingReview (approvals : Nat) : State
  | published : State
deriving DecidableEq, Repr

/-- Model of `Post { state, content }`.  The source wraps `state` in
`Option<Box<dyn State>>` only so `Drop`-free ownership juggling works;
every public method immediately unwraps it, so it is always `Some` and is
modelled directly. -/
structure Post where
  state : State
  content : String
deriving DecidableEq, Repr

/-- Model of `Post::new`: starts as a `Draft` with empty content. -/
def Post.new : Post := { state := .draft, content := "" }

/-- The `State::add_text` trait method: the default implementation leaves
`content` untouched; only `Draft` overrides it with `content.push_str(text)`. -/
def State.add_text (s : State) (text : String) (content : String) : String :=
  match s with
  | .draft => content ++ text
  | .pendingReview _ => content
  | .published => content

/-- Model of `Post::add_text`: delegates to the current state's `add_text`. -/
def Post.add_text (p : Post) (text : String) : Post :=
  { p with content := p.state.add_text text p.content }

/-- The `State::request_review` implementations: `Draft` moves to
`PendingReview { approvals: 0 }`; the other states return `self`. -/
def State.request_review (s : State) : State :=
  match s with
  | .draft => .pendingReview 0
  | .pendingReview a => .pendingReview a
  | .published => .published

/-- The `State::approve` implementations: `PendingReview` publishes when
`approvals == 1` and otherwise increments `approvals`; `Draft` and
`Published` return `self`. -/
def State.approve (s : State) : State :=
  match s with
  | .draft => .draft
  | .pendingReview a => if a = 1 then .published else .pendingReview (a + 1)
  | .published => .published

/-- The `State::reject` implementations: `PendingReview` returns to
`Draft`; `Draft` and `Published` return `self`. -/
def State.reject (s : State) : State :=
  match s with
  | .draft => .draft
  | .pendingReview _ => .draft
  | .published => .published

/-- The `State::content` trait method: default returns `""`; only
`Published` overrides it to return the post's stored content. -/
def State.content (s : State) (post : Post) : String :=
  match s with
  | .published => post.content
  | .draft => ""
  | .pendingReview _ => ""

/-- Model of `Post::request_review`. -/
def Post.request_review (p : Post) : Post :=
  { p with state := p.state.request_review }

/-- Model of `Post::approve`. -/
def Post.approve (p : Post) : Post :=
  { p with state := p.state.approve }

/-- Model of `Post::reject`. -/
def Post.reject (p : Post) : Post :=
  { p with state := p.state.reject }

/-- Model of `Post::content` (named `contentView` because `content` is the field
name): delegates to the current state's `content`. -/
def Post.contentView (p : Post) : String :=
  p.state.content p

/-- The four public mutating/observing calls a client can make on an
`oop_blog::Post`. -/
inductive Op where
  | addText (s : String) : Op
  | requestReview : Op
  | approve : Op
  | reject : Op
deriving DecidableEq, Repr

/-- Apply one public call to a post. -/
def Post.applyOp (p : Post) : Op → Post
  | .addText s => p.add_text s
  | .requestReview => p.request_review
  | .approve => p.approve
  | .reject => p.reject

/-- Run a sequence of public calls starting from `Post::new`. -/
def Post.run (ops : List Op) : Post :=
  ops.foldl Post.applyOp Post.new

/-- The text accumulated by the `addText` calls of `ops` that are issued
while the state (evolving from `st`) is `Draft`. -/
def draftTexts (st : State) : List Op → String
  | [] => ""
  | .addText s :: rest => (if st = .draft then s else "") ++ draftTexts st rest
  | .requestReview :: rest => draftTexts st.request_review rest
  | .approve :: rest => draftTexts st.approve rest
  | .reject :: rest => draftTexts st.reject rest

end OopBlog

namespace TypesBlog

/-- Model of `types_blog::Post`: the published post, content freely readable. -/
structure Post where
  content : String
deriving DecidableEq, Repr

/-- Model of `types_blog::DraftPost`. -/
structure DraftPost where
  content : String
deriving DecidableEq, Repr

/-- Model of `types_blog::PendingReviewPost { approvals: u8, content }`. -/
structure PendingReviewPost where
  approvals : Nat
  content : String
deriving DecidableEq, Repr

/-- Model of `Post::new`: returns a `DraftPost` with empty content. -/
def Post.new : DraftPost := { content := "" }

/-- Model of `Post::content` (named `contentView` because `content` is the field
name). -/
def Post.contentView (p : Post) : String := p.content

/-- Model of `DraftPost::add_text`: `content.push_str(text)`. -/
def DraftPost.add_text (p : DraftPost) (text : String) : DraftPost :=
  { content := p.content ++ text }

/-- Model of `DraftPost::request_review`: yields a `PendingReviewPost` with
`approvals: 0`. -/
def DraftPost.request_review (p : DraftPost) : PendingReviewPost :=
  { approvals := 0, content := p.content }

/-- Model of `types_blog::MaybeApproved`. -/
inductive MaybeApproved where
  | pendingApproval (p : PendingReviewPost) : MaybeApproved
  | approved (p : Post) : MaybeApproved
deriving DecidableEq, Repr

/-- Model of `PendingReviewPost::approve`: stays pending (incrementing `approvals`)
while `approvals < 1`; otherwise yields the approved `Post`. -/
def PendingReviewPost.approve (p : PendingReviewPost) : MaybeApproved :=
  if p.approvals < 1 then
    .pendingApproval { approvals := p.approvals + 1, content := p.content }
  else
    .approved { content := p.content }

/-- Model of `PendingReviewPost::reject`: back to a `DraftPost` with the same
content. -/
def PendingReviewPost.reject (p : PendingReviewPost) : DraftPost :=
  { content := p.content }

end TypesBlog

namespace HelloWeb

/-- A submitted job (`Box<dyn FnOnce() + Send>`), identified by the index
of the work item it came from. -/
abbrev Job : Type := Nat

/-- The send endpoint of the mpsc channel.  `connected` records whether
the receive endpoint is still alive; `Sender::send` fails exactly when it
is not. -/
structure Sender where
  connected : Bool
deriving DecidableEq, Repr

/-- Model of `Sender::send`: `Ok(())` while the receiver lives, a `SendError`
once the channel is disconnected. -/
def Sender.send (s : Sender) (_j : Job) : Except String Unit :=
  if s.connected then .ok () else .error "SendError"

/-- What `JoinHandle::join` will report for a spawned thread: `Ok` if the
thread ran to completion, `Err e` if it terminated by panicking. -/
structure JoinHandle where
  outcome : Except String Unit
deriving Repr

/-- Model of `Worker { id, thread: Option<JoinHandle<()>> }`. -/
structure Worker where
  id : Nat
  thread : Option JoinHandle
deriving Repr

/-- A worker whose thread terminated by panicking. -/
def Worker.panicked (w : Worker) : Bool :=
  match w.thread with
  | some h => match h.outcome with
    | .error _ => true
    | .ok _ => false
  | none => false

/-- Model of `ThreadPool { workers, job_sender: Option<Sender<Job>> }`. -/
structure ThreadPool where
  workers : List Worker
  job_sender : Option Sender
deriving Repr

/-- Model of `ThreadPool::new`.  `assert!(num_threads != 0)` is modelled as the
error outcome (a panic aborts construction); otherwise workers with ids
`0..num_threads` are spawned on the shared receiver and the send endpoint
is retained.  `outcome` gives, per worker id, what that worker's spawned
thread will eventually report to `join` (the thread's future behaviour is
not determined at construction time). -/
def ThreadPool.new (num_threads : Nat) (outcome : Nat → Except String Unit) :
    Except String ThreadPool :=
  if num_threads = 0 then
    .error "assertion failed: num_threads != 0"
  else
    .ok
      { workers :=
          (List.range num_threads).map
            (fun id => { id := id, thread := some { outcome := outcome id } }),
        job_sender := some { connected := true } }

/-- The possible outcomes of `ThreadPool::execute`: normal return, a
panic (which aborts the caller), or a recoverable send-error value handed
back to the caller.  The last constructor is the outcome the
specification describes; the source never produces it. -/
inductive ExecResult where
  | ok : ExecResult
  | panic (msg : String) : ExecResult
  | sendError (msg : String) : ExecResult
deriving DecidableEq, Repr

/-- Model of `ThreadPool::execute`:
`self.job_sender.as_ref().expect("channel closed").send(job).unwrap()`.
A missing sender makes `expect` panic with "channel closed"; a failed
`send` makes `unwrap` panic with the send error. -/
def ThreadPool.execute (p : ThreadPool) (j : Job) : ExecResult :=
  match p.job_sender with
  | none => .panic "channel closed"
  | some s =>
    match s.send j with
    | .ok _ => .ok
    | .error e => .panic e

/-- Whether an `ExecResult` is a recoverable error signalled to the
caller (as opposed to a panic or a normal return). -/
def ExecResult.isRecoverable (r : ExecResult) : Bool :=
  match r with
  | .sendError _ => true
  | .ok => false
  | .panic _ => false

/-- Whether an `ExecResult` is a panic. -/
def ExecResult.isPanic (r : ExecResult) : Bool :=
  match r with
  | .panic _ => true
  | .ok => false
  | .sendError _ => false

/-- The observable actions of `ThreadPool::drop`, in order: dropping the
taken `job_sender`, and joining a worker's thread. -/
inductive DropEvent where
  | dropSender : DropEvent
  | join (id : Nat) : DropEvent
deriving DecidableEq, Repr

/-- The join loop of `ThreadPool::drop`: for each worker in order, if its
handle is present, `join` it and `unwrap` the result — a panicking
thread's error aborts the loop (the unwrap panics in the dropping
thread). Returns the trace of join events and the loop's outcome. -/
def joinAll : List Worker → List DropEvent × Except String Unit
  | [] => ([], .ok ())
  | w :: ws =>
    match w.thread with
    | none => joinAll ws
    | some h =>
      match h.outcome with
      | .ok _ => ((DropEvent.join w.id) :: (joinAll ws).1, (joinAll ws).2)
      | .error e => ([DropEvent.join w.id], .error e)

/-- Model of `ThreadPool::drop`: `drop(self.job_sender.take())` first, then the
join loop over `self.workers` in construction order.  Returns the full
event trace and the outcome (`error` if a join's unwrap panicked). -/
def ThreadPool.dropRun (p : ThreadPool) : List DropEvent × Except String Unit :=
  (DropEvent.dropSender :: (joinAll p.workers).1, (joinAll p.workers).2)

/-- The worker ids appearing in `join` events, in trace order. -/
def joinIds (l : List DropEvent) : List Nat :=
  l.filterMap (fun e => match e with
    | .join i => some i
    | .dropSender => none)

/-! ### Operational model of the job channel and the worker loops

The loop spawned by `Worker::new` is

    loop (
      let message = receiver.lock().expect("mutex poisoned").recv();
      if let Ok(job) = message ( job(); ) else ( break; )
    )

Receiving is serialized by the mutex; a successful `recv` dequeues the
front of the FIFO channel and the worker runs the job outside the lock;
`recv` returns `Err` exactly when the channel is closed (sender dropped)
and empty, and the loop then breaks.  The small-step relation below has
one state per worker (idle / running a job / terminated) and one shared
FIFO queue with a closed flag; interleaving of the worker threads is the
nondeterminism of which rule fires. -/

/-- The per-worker control state of the loop in `Worker::new`. -/
inductive WStatus where
  | idle : WStatus
  | running (j : Job) : WStatus
  | terminated : WStatus
deriving DecidableEq, Repr

/-- Shared state: the channel's FIFO buffer, whether the send endpoint
has been dropped, each worker's loop status, and the log of completed
job executions as (worker id, job) pairs. -/
structure PoolState where
  queue : List Job
  closed : Bool
  status : Nat → WStatus
  log : List (Nat × Job)

/-- Pointwise status update. -/
def setStatus (f : Nat → WStatus) (w : Nat) (st : WStatus) : Nat → WStatus :=
  fun v => if v = w then st else f v

/-- One interleaved step of a pool with `n` worker threads:
* `recvOk`: an idle worker's `recv` succeeds, dequeuing the front job;
* `finish`: a running worker's job returns; the execution is logged and
  the worker loops back to receiving;
* `recvClosed`: `recv` reports the channel closed and empty; the loop
  breaks and the thread terminates;
* `close`: the pool's teardown drops the send endpoint. -/
inductive Step (n : Nat) : PoolState → PoolState → Prop where
  | recvOk (s : PoolState) (w : Nat) (j : Job) (q : List Job)
      (hw : w < n) (hst : s.status w = .idle) (hq : s.queue = j :: q) :
      Step n s { queue := q, closed := s.closed,
                 status := setStatus s.status w (.running j), log := s.log }
  | finish (s : PoolState) (w : Nat) (j : Job)
      (hw : w < n) (hst : s.status w = .running j) :
      Step n s { queue := s.queue, closed := s.closed,
                 status := setStatus s.status w .idle,
                 log := s.log ++ [(w, j)] }
  | recvClosed (s : PoolState) (w : Nat)
      (hw : w < n) (hst : s.status w = .idle)
      (hq : s.queue = []) (hc : s.closed = true) :
      Step n s { queue := s.queue, closed := s.closed,
                 status := setStatus s.status w .terminated, log := s.log }
  | close (s : PoolState) (hc : s.closed = false) :
      Step n s { queue := s.queue, closed := true,
                 status := s.status, log := s.log }

/-- Zero or more interleaved steps. -/
inductive Reaches (n : Nat) (s : PoolState) : PoolState → Prop where
  | refl : Reaches n s s
  | tail (t u : PoolState) : Reaches n s t → Step n t u → Reaches n s u

/-- The state right after `N` work items (numbered `0..N`) have been
submitted to a fresh pool of `n` workers and before teardown: all items
queued in submission order, channel open, every worker in its receive
loop, nothing executed yet. -/
def init (N : Nat) : PoolState :=
  { queue := List.range N, closed := false,
    status := fun _ => .idle, log := [] }

/-- All `n` worker loops have terminated (every thread is joinable and
`ThreadPool::drop`'s joins all return). -/
def allTerminated (n : Nat) (s : PoolState) : Prop :=
  ∀ w, w < n → s.status w = .terminated

instance (n : Nat) (s : PoolState) : Decidable (allTerminated n s) :=
  Nat.decidableBallLT n (fun w _ => s.status w = .terminated)

/-- The jobs currently being executed, one slot per worker in id order. -/
def runningJobs (n : Nat) (s : PoolState) : List Job :=
  (List.range n).filterMap (fun w => match s.status w with
    | .running j => some j
    | .idle => none
    | .terminated => none)

/-- The jobs whose execution has completed, in log order. -/
def loggedJobs (s : PoolState) : List Job :=
  s.log.map Prod.snd

/-- The executions a given worker has performed. -/
def logOf (s : PoolState) (w : Nat) : List (Nat × Job) :=
  s.log.filter (fun e => e.1 = w)

end HelloWeb

namespace HelloWeb

/-- A concrete pool on which teardown has begun: `drop` has taken the
`job_sender` (it is `None`), its one worker already joined. -/
def tornDownPool : ThreadPool :=
  { workers := [{ id := 0, thread := none }], job_sender := none }

/-- The number of workers currently executing the job `j`. -/
def runningCount (n : Nat) (s : PoolState) (j : Job) : Nat :=
  ((Finset.range n).filter (fun w => s.status w = WStatus.running j)).card

/-- How many copies of job `j` are in the system: already executed, being
executed, or still queued.  The channel neither duplicates nor loses
jobs, so every step preserves this. -/
def totalCount (n : Nat) (s : PoolState) (j : Job) : Nat :=
  (loggedJobs s).count j + runningCount n s j + s.queue.count j

/-- Concrete run for the witnesses: one worker, one job.  Start: job 0
queued, channel open. -/
def sInit : PoolState := init 1

/-- After teardown drops the sender. -/
def sA : PoolState :=
  { queue := sInit.queue, closed := true, status := sInit.status,
    log := sInit.log }

/-- After worker 0 receives job 0. -/
def sB : PoolState :=
  { queue := [], closed := sA.closed,
    status := setStatus sA.status 0 (.running 0), log := sA.log }

/-- After job 0 returns and worker 0 loops back to receiving. -/
def sC : PoolState :=
  { queue := sB.queue, closed := sB.closed,
    status := setStatus sB.status 0 .idle, log := sB.log ++ [(0, 0)] }

/-- After worker 0 sees the channel closed and empty and its loop breaks. -/
def sD : PoolState :=
  { queue := sC.queue, closed := sC.closed,
    status := setStatus sC.status 0 .terminated, log := sC.log }

end HelloWeb

/-- C2: for `num_threads == 0`, `ThreadPool::new` fails every time,
deterministically: the `assert!` panics and aborts construction, whatever
the spawned threads would have done; no pool is ever returned. -/
theorem c2_new_zero_workers_always_fails (outcome : Nat → Except String Unit) :
    HelloWeb.ThreadPool.new 0 outcome =
      .error "assertion failed: num_threads != 0" := rfl

/-- C3: for every `num_threads > 0`, `ThreadPool::new` succeeds, and the
returned pool has exactly `num_threads` workers whose ids are
`0, 1, ..., num_threads - 1` in order, and a populated `job_sender`. -/
theorem c3_new_positive_workers (n : Nat) (outcome : Nat → Except String Unit)
    (h : 0 < n) :
    ∃ p : HelloWeb.ThreadPool,
      HelloWeb.ThreadPool.new n outcome = .ok p ∧
      p.workers.length = n ∧
      p.workers.map HelloWeb.Worker.id = List.range n ∧
      p.job_sender.isSome = true := by
  refine ⟨{ workers := (List.range n).map
              (fun id => { id := id, thread := some { outcome := outcome id } }),
            job_sender := some { connected := true } }, ?_, ?_, ?_, rfl⟩
  · simp [HelloWeb.ThreadPool.new, Nat.pos_iff_ne_zero.mp h]
  · simp
  · simp [Function.comp_def]

/-- Witness for C3 at `num_threads = 3`. -/
theorem c3_new_positive_workers_witness :
    0 < 3 ∧
    ∃ p : HelloWeb.ThreadPool,
      HelloWeb.ThreadPool.new 3 (fun _ => .ok ()) = .ok p ∧
      p.workers.length = 3 ∧
      p.workers.map HelloWeb.Worker.id = List.range 3 ∧
      p.job_sender.isSome = true :=
  ⟨by decide, c3_new_positive_workers 3 (fun _ => .ok ()) (by decide)⟩

/-- C1 counterexample: on the pool whose `job_sender` has already been
taken by teardown, `ThreadPool::execute` panics (the
`expect("channel closed")` fires, terminating the program); it does not
hand the caller a recoverable send error. -/
theorem c1_counterexample_execute_panics :
    HelloWeb.tornDownPool.execute 0 = .panic "channel closed" ∧
    (HelloWeb.tornDownPool.execute 0).isRecoverable = false ∧
    (HelloWeb.tornDownPool.execute 0).isPanic = true :=
  ⟨rfl, rfl, rfl⟩

/-- C1 amended: calling `ThreadPool::execute` after teardown has begun
(the `job_sender` already taken) always panics with message
"channel closed" — an unrecoverable termination of the calling program,
not a recoverable send error the caller could handle. -/
theorem c1_execute_after_teardown_panics (p : HelloWeb.ThreadPool)
    (j : HelloWeb.Job) (h : p.job_sender = none) :
    p.execute j = .panic "channel closed" ∧
    (p.execute j).isRecoverable = false := by
  unfold HelloWeb.ThreadPool.execute
  rw [h]
  exact ⟨rfl, rfl⟩

/-- Witness for the amended C1 on a concrete torn-down pool. -/
theorem c1_execute_after_teardown_panics_witness :
    HelloWeb.tornDownPool.job_sender = none ∧
    (HelloWeb.tornDownPool.execute 1 = .panic "channel closed" ∧
     (HelloWeb.tornDownPool.execute 1).isRecoverable = false) :=
  ⟨rfl, c1_execute_after_teardown_panics HelloWeb.tornDownPool 1 rfl⟩

namespace HelloWeb

/-- The join loop of `drop` never drops the sender: `dropSender` is not
among its events. -/
theorem joinAll_no_dropSender (ws : List Worker) :
    DropEvent.dropSender ∉ (joinAll ws).1 := by
  induction ws with
  | nil => simp [joinAll]
  | cons w ws ih =>
    cases hth : w.thread with
    | none => simpa [joinAll, hth] using ih
    | some h =>
      cases ho : h.outcome with
      | ok u => simpa [joinAll, hth, ho] using ih
      | error e => simp [joinAll, hth, ho]

/-- The worker ids joined by the join loop form a sublist of the worker
ids in construction order. -/
theorem joinIds_joinAll_sublist (ws : List Worker) :
    List.Sublist (joinIds (joinAll ws).1) (ws.map Worker.id) := by
  induction ws with
  | nil => simp [joinAll, joinIds]
  | cons w ws ih =>
    cases hth : w.thread with
    | none =>
      simp only [joinAll, hth, List.map_cons]
      exact ih.cons _
    | some h =>
      cases ho : h.outcome with
      | ok u =>
        simp only [joinAll, hth, ho, joinIds, List.filterMap_cons, List.map_cons]
        exact ih.cons₂ _
      | error e =>
        simp only [joinAll, hth, ho, joinIds, List.filterMap_cons, List.map_cons,
          List.filterMap_nil]
        exact (List.nil_sublist _).cons₂ _

end HelloWeb

/-- C4: in `ThreadPool::drop`, the send endpoint is relinquished exactly
once, as the very first action, strictly before any worker join; the
joins then proceed over the workers in construction order (their ids form
a sublist of the pool's worker ids in order). -/
theorem c4_drop_closes_sender_before_joins (p : HelloWeb.ThreadPool) :
    ∃ l, p.dropRun.1 = HelloWeb.DropEvent.dropSender :: l ∧
      HelloWeb.DropEvent.dropSender ∉ l ∧
      List.Sublist (HelloWeb.joinIds l) (p.workers.map HelloWeb.Worker.id) :=
  ⟨(HelloWeb.joinAll p.workers).1, rfl,
    HelloWeb.joinAll_no_dropSender p.workers,
    HelloWeb.joinIds_joinAll_sublist p.workers⟩

namespace HelloWeb

/-- Skipping a non-panicked worker leaves the join loop's outcome that of
the remaining workers. -/
theorem joinAll_snd_cons_of_not_panicked (w : Worker) (ws : List Worker)
    (h : w.panicked = false) : (joinAll (w :: ws)).2 = (joinAll ws).2 := by
  cases hth : w.thread with
  | none => simp [joinAll, hth]
  | some hd =>
    cases ho : hd.outcome with
    | ok u => simp [joinAll, hth, ho]
    | error e => simp [Worker.panicked, hth, ho] at h

end HelloWeb

/-- C7: if a worker's thread terminated by panicking with error `e`, and
teardown reaches it (no earlier worker panicked), then the join loop of
`ThreadPool::drop` surfaces exactly `e` to the dropping thread (the
`join().unwrap()` re-raises it rather than swallowing it). -/
theorem c7_join_surfaces_worker_panic (ws1 : List HelloWeb.Worker)
    (w : HelloWeb.Worker) (ws2 : List HelloWeb.Worker)
    (sender : Option HelloWeb.Sender) (e : String)
    (h1 : ∀ w' ∈ ws1, w'.panicked = false)
    (h2 : w.thread = some { outcome := .error e }) :
    (HelloWeb.ThreadPool.mk (ws1 ++ w :: ws2) sender).dropRun.2 = .error e := by
  induction ws1 with
  | nil =>
    show (HelloWeb.joinAll (w :: ws2)).2 = .error e
    simp [HelloWeb.joinAll, h2]
  | cons a as ih =>
    have ha : a.panicked = false := h1 a (List.mem_cons_self a _)
    show (HelloWeb.joinAll (a :: (as ++ w :: ws2))).2 = .error e
    rw [HelloWeb.joinAll_snd_cons_of_not_panicked a _ ha]
    exact ih (fun w' hw' => h1 w' (List.mem_cons_of_mem a hw'))

/-- Witness for C7: a two-worker pool whose second worker panicked with
"job panicked"; teardown surfaces that very error. -/
theorem c7_join_surfaces_worker_panic_witness :
    (∀ w' ∈ [HelloWeb.Worker.mk 0 (some { outcome := .ok () })],
        w'.panicked = false) ∧
    HelloWeb.Worker.thread { id := 1, thread := some { outcome := .error "job panicked" } } =
      some { outcome := .error "job panicked" } ∧
    (HelloWeb.ThreadPool.mk
        ([HelloWeb.Worker.mk 0 (some { outcome := .ok () })] ++
          { id := 1, thread := some { outcome := .error "job panicked" } } :: [])
        none).dropRun.2 = .error "job panicked" :=
  ⟨by intro w' hw'; simp at hw'; subst hw'; rfl, rfl,
    c7_join_surfaces_worker_panic
      [HelloWeb.Worker.mk 0 (some { outcome := .ok () })]
      { id := 1, thread := some { outcome := .error "job panicked" } } [] none
      "job panicked"
      (by intro w' hw'; simp at hw'; subst hw'; rfl) rfl⟩

namespace OopBlog

/-- Running calls from any post appends to its content exactly the text
of the `addText` calls issued while the evolving state is `Draft`; no
other call changes the content. -/
theorem foldl_applyOp_content (ops : List Op) (p : Post) :
    (ops.foldl Post.applyOp p).content = p.content ++ draftTexts p.state ops := by
  induction ops generalizing p with
  | nil => simp [draftTexts, String.append_empty]
  | cons op rest ih =>
    cases op with
    | addText s =>
      rw [List.foldl_cons, ih]
      cases hst : p.state with
      | draft =>
        simp [Post.applyOp, Post.add_text, State.add_text, draftTexts, hst,
          String.append_assoc]
      | pendingReview a =>
        simp [Post.applyOp, Post.add_text, State.add_text, draftTexts, hst]
      | published =>
        simp [Post.applyOp, Post.add_text, State.add_text, draftTexts, hst]
    | requestReview =>
      rw [List.foldl_cons, ih]
      simp [Post.applyOp, Post.request_review, draftTexts]
    | approve =>
      rw [List.foldl_cons, ih]
      simp [Post.applyOp, Post.approve, draftTexts]
    | reject =>
      rw [List.foldl_cons, ih]
      simp [Post.applyOp, Post.reject, draftTexts]

end OopBlog

/-- C8: two-approval threshold in both blog implementations.  In
`oop_blog`, from the pending-review state just entered (zero approvals),
one `approve` does not publish and a second one does, after which
`content` returns the stored text.  In `types_blog`, a
`PendingReviewPost` with zero approvals stays pending after one
`approve` and becomes an approved `Post` (content readable) after the
second. -/
theorem c8_two_approval_threshold :
    (∀ p : OopBlog.Post, p.state = .pendingReview 0 →
      p.approve.state ≠ .published ∧
      p.approve.approve.state = .published ∧
      p.approve.approve.contentView = p.content) ∧
    (∀ p : TypesBlog.PendingReviewPost, p.approvals = 0 →
      p.approve = .pendingApproval { approvals := 1, content := p.content } ∧
      TypesBlog.PendingReviewPost.approve { approvals := 1, content := p.content } =
        .approved { content := p.content } ∧
      TypesBlog.Post.contentView { content := p.content } = p.content) := by
  constructor
  · intro p h
    refine ⟨?_, ?_, ?_⟩ <;>
      simp [OopBlog.Post.approve, OopBlog.State.approve, h,
        OopBlog.Post.contentView, OopBlog.State.content]
  · intro p h
    refine ⟨?_, ?_, rfl⟩ <;>
      simp [TypesBlog.PendingReviewPost.approve, h]

/-- Witness for C8 on concrete pending-review posts holding "salad". -/
theorem c8_two_approval_threshold_witness :
    ((OopBlog.Post.mk (.pendingReview 0) "salad").approve.state ≠ .published ∧
     (OopBlog.Post.mk (.pendingReview 0) "salad").approve.approve.state = .published ∧
     (OopBlog.Post.mk (.pendingReview 0) "salad").approve.approve.contentView =
       (OopBlog.Post.mk (.pendingReview 0) "salad").content) ∧
    ((TypesBlog.PendingReviewPost.mk 0 "salad").approve =
       .pendingApproval (TypesBlog.PendingReviewPost.mk 1
         (TypesBlog.PendingReviewPost.mk 0 "salad").content) ∧
     (TypesBlog.PendingReviewPost.mk 1
         (TypesBlog.PendingReviewPost.mk 0 "salad").content).approve =
       .approved (TypesBlog.Post.mk (TypesBlog.PendingReviewPost.mk 0 "salad").content) ∧
     (TypesBlog.Post.mk (TypesBlog.PendingReviewPost.mk 0 "salad").content).contentView =
       (TypesBlog.PendingReviewPost.mk 0 "salad").content) :=
  ⟨c8_two_approval_threshold.1 (OopBlog.Post.mk (.pendingReview 0) "salad") rfl,
   c8_two_approval_threshold.2 (TypesBlog.PendingReviewPost.mk 0 "salad") rfl⟩

/-- C9: for every call sequence from `Post::new`, `content` returns `""`
whenever the post is not `Published`, and in the `Published` state it
returns exactly the text accumulated by the `add_text` calls issued while
the post was a `Draft`. -/
theorem c9_content_empty_unless_published (ops : List OopBlog.Op) :
    ((OopBlog.Post.run ops).state ≠ .published →
      (OopBlog.Post.run ops).contentView = "") ∧
    ((OopBlog.Post.run ops).state = .published →
      (OopBlog.Post.run ops).contentView = OopBlog.draftTexts .draft ops) := by
  have hc : (OopBlog.Post.run ops).content = OopBlog.draftTexts .draft ops := by
    have h := OopBlog.foldl_applyOp_content ops OopBlog.Post.new
    simpa [OopBlog.Post.run, OopBlog.Post.new, String.empty_append] using h
  constructor
  · intro h
    cases hst : (OopBlog.Post.run ops).state with
    | draft => simp [OopBlog.Post.contentView, OopBlog.State.content, hst]
    | pendingReview a => simp [OopBlog.Post.contentView, OopBlog.State.content, hst]
    | published => exact absurd hst h
  · intro h
    simp [OopBlog.Post.contentView, OopBlog.State.content, h, hc]

/-- Witness for C9: one unpublished run (content hidden) and one run
driven to `Published` (content equal to the draft-time text). -/
theorem c9_content_empty_unless_published_witness :
    (OopBlog.Post.run [OopBlog.Op.addText "hello"]).contentView = "" ∧
    (OopBlog.Post.run [OopBlog.Op.addText "salad", OopBlog.Op.requestReview,
        OopBlog.Op.approve, OopBlog.Op.approve]).contentView =
      OopBlog.draftTexts .draft [OopBlog.Op.addText "salad",
        OopBlog.Op.requestReview, OopBlog.Op.approve, OopBlog.Op.approve] :=
  ⟨(c9_content_empty_unless_published [OopBlog.Op.addText "hello"]).1 (by decide),
   (c9_content_empty_unless_published [OopBlog.Op.addText "salad",
      OopBlog.Op.requestReview, OopBlog.Op.approve, OopBlog.Op.approve]).2
     (by decide)⟩

/-- C10: `Post::add_text` never changes the state; while the post is a
`Draft` it appends its argument to the content, and in any other state
(`PendingReview`, `Published`) it leaves the whole post unchanged. -/
theorem c10_add_text_only_in_draft (p : OopBlog.Post) (text : String) :
    (p.add_text text).state = p.state ∧
    (p.state = .draft → (p.add_text text).content = p.content ++ text) ∧
    (p.state ≠ .draft → p.add_text text = p) := by
  refine ⟨rfl, ?_, ?_⟩
  · intro h
    simp [OopBlog.Post.add_text, OopBlog.State.add_text, h]
  · intro h
    cases p with
    | mk st c =>
      cases st with
      | draft => exact absurd rfl h
      | pendingReview a => rfl
      | published => rfl

/-- Witness for C10: appending works on a draft and is a no-op on a
published post. -/
theorem c10_add_text_only_in_draft_witness :
    ((OopBlog.Post.mk .draft "a").add_text "b").state = OopBlog.State.draft ∧
    ((OopBlog.Post.mk .draft "a").add_text "b").content = "a" ++ "b" ∧
    (OopBlog.Post.mk .published "a").add_text "b" = OopBlog.Post.mk .published "a" :=
  ⟨(c10_add_text_only_in_draft (OopBlog.Post.mk .draft "a") "b").1,
   (c10_add_text_only_in_draft (OopBlog.Post.mk .draft "a") "b").2.1 rfl,
   (c10_add_text_only_in_draft (OopBlog.Post.mk .published "a") "b").2.2 (by decide)⟩

namespace HelloWeb

/-- Counting over a finite set splits off one chosen element. -/
theorem card_filter_split (s : Finset Nat) (w : Nat) (hw : w ∈ s)
    (p : Nat → Prop) [DecidablePred p] :
    (s.filter p).card = (if p w then 1 else 0) + ((s.erase w).filter p).card := by
  conv_lhs => rw [← Finset.insert_erase hw]
  rw [Finset.filter_insert]
  by_cases hp : p w
  · rw [if_pos hp, if_pos hp, Finset.card_insert_of_not_mem]
    · omega
    · intro hmem
      exact Finset.not_mem_erase w s (Finset.mem_filter.mp hmem).1
  · rw [if_neg hp, if_neg hp, Nat.zero_add]

/-- Away from the updated worker, a status update changes nothing. -/
theorem filter_erase_setStatus (n w : Nat) (f : Nat → WStatus) (st : WStatus)
    (j : Job) :
    ((Finset.range n).erase w).filter
        (fun v => setStatus f w st v = WStatus.running j) =
    ((Finset.range n).erase w).filter (fun v => f v = WStatus.running j) := by
  apply Finset.filter_congr
  intro v hv
  have hne : v ≠ w := (Finset.mem_erase.mp hv).1
  simp [setStatus, hne]

/-- Updating one worker's status shifts the running-count by the
difference of the old and new contributions of that worker. -/
theorem runningCount_setStatus (n w : Nat) (hw : w < n) (f : Nat → WStatus)
    (st : WStatus) (j : Job) :
    ((Finset.range n).filter
        (fun v => setStatus f w st v = WStatus.running j)).card
      + (if f w = WStatus.running j then 1 else 0)
    = ((Finset.range n).filter (fun v => f v = WStatus.running j)).card
      + (if st = WStatus.running j then 1 else 0) := by
  have hwmem : w ∈ Finset.range n := Finset.mem_range.mpr hw
  rw [card_filter_split (Finset.range n) w hwmem, card_filter_split (Finset.range n) w hwmem,
    filter_erase_setStatus]
  have hst : setStatus f w st w = st := by simp [setStatus]
  rw [hst]
  omega

/-- A successful receive moves the head job from the queue into the
receiving worker: the running count of that job rises by one. -/
theorem runningCount_recv (n w : Nat) (hw : w < n) (f : Nat → WStatus)
    (j0 j : Job) (hidle : f w = WStatus.idle) :
    ((Finset.range n).filter
        (fun v => setStatus f w (WStatus.running j0) v = WStatus.running j)).card
    = ((Finset.range n).filter (fun v => f v = WStatus.running j)).card
      + (if j0 = j then 1 else 0) := by
  have h := runningCount_setStatus n w hw f (WStatus.running j0) j
  rw [hidle] at h
  have h1 : (if WStatus.idle = WStatus.running j then (1 : Nat) else 0) = 0 := by
    simp
  have h2 : (if WStatus.running j0 = WStatus.running j then (1 : Nat) else 0)
      = (if j0 = j then 1 else 0) := by
    by_cases hj : j0 = j
    · simp [hj]
    · simp [hj]
  rw [h1, h2] at h
  omega

/-- A finished job leaves its worker: the running count of that job drops
by one (stated additively). -/
theorem runningCount_finish (n w : Nat) (hw : w < n) (f : Nat → WStatus)
    (j0 j : Job) (hrun : f w = WStatus.running j0) :
    ((Finset.range n).filter (fun v => f v = WStatus.running j)).card
    = ((Finset.range n).filter
        (fun v => setStatus f w WStatus.idle v = WStatus.running j)).card
      + (if j0 = j then 1 else 0) := by
  have h := runningCount_setStatus n w hw f WStatus.idle j
  rw [hrun] at h
  have h1 : (if WStatus.idle = WStatus.running j then (1 : Nat) else 0) = 0 := by
    simp
  have h2 : (if WStatus.running j0 = WStatus.running j then (1 : Nat) else 0)
      = (if j0 = j then 1 else 0) := by
    by_cases hj : j0 = j
    · simp [hj]
    · simp [hj]
  rw [h1, h2] at h
  omega

/-- An idle worker terminating leaves every running count unchanged. -/
theorem runningCount_terminate (n w : Nat) (hw : w < n) (f : Nat → WStatus)
    (j : Job) (hidle : f w = WStatus.idle) :
    ((Finset.range n).filter
        (fun v => setStatus f w WStatus.terminated v = WStatus.running j)).card
    = ((Finset.range n).filter (fun v => f v = WStatus.running j)).card := by
  have h := runningCount_setStatus n w hw f WStatus.terminated j
  rw [hidle] at h
  simpa using h

/-- Counting after consing, with a propositional conditional. -/
theorem count_cons_ite (a b : Nat) (l : List Nat) :
    (b :: l).count a = l.count a + (if b = a then 1 else 0) := by
  rw [List.count_cons]
  by_cases h : b = a
  · simp [h]
  · simp [h, Ne.symm h]

/-- Counting after appending one element, with a propositional
conditional. -/
theorem count_append_singleton (a b : Nat) (l : List Nat) :
    (l ++ [b]).count a = l.count a + (if b = a then 1 else 0) := by
  rw [List.count_append, count_cons_ite]
  simp

/-- Every step of the pool preserves the per-job total: jobs are neither
duplicated nor lost by the channel, the workers, or teardown. -/
theorem step_totalCount (n : Nat) (s t : PoolState) (h : Step n s t)
    (j : Job) : totalCount n t j = totalCount n s j := by
  cases h with
  | recvOk w j0 q hw hst hq =>
    unfold totalCount runningCount loggedJobs
    dsimp only
    rw [hq, count_cons_ite, runningCount_recv n w hw s.status j0 j hst]
    omega
  | finish w j0 hw hst =>
    unfold totalCount runningCount loggedJobs
    dsimp only
    simp only [List.map_append, List.map_cons, List.map_nil]
    rw [count_append_singleton, runningCount_finish n w hw s.status j0 j hst]
    omega
  | recvClosed w hw hst hq hc =>
    unfold totalCount runningCount loggedJobs
    dsimp only
    rw [runningCount_terminate n w hw s.status j hst]
  | close hc => rfl

/-- The per-job total is invariant along any interleaving. -/
theorem reaches_totalCount (n : Nat) (s t : PoolState) (h : Reaches n s t)
    (j : Job) : totalCount n t j = totalCount n s j := by
  induction h with
  | refl => rfl
  | tail b c hr hstep ih =>
    rw [step_totalCount n b c hstep j]
    exact ih

/-- A step cannot repopulate the queue once every worker has terminated:
the property "all terminated implies empty queue" is inductive. -/
theorem step_queue_empty_inv (n : Nat) (s t : PoolState) (h : Step n s t)
    (hs : allTerminated n s → s.queue = []) :
    allTerminated n t → t.queue = [] := by
  cases h with
  | recvOk w j0 q hw hst hq =>
    intro hterm
    have hcon := hterm w hw
    simp [setStatus] at hcon
  | finish w j0 hw hst =>
    intro hterm
    have hcon := hterm w hw
    simp [setStatus] at hcon
  | recvClosed w hw hst hq hc =>
    intro _
    exact hq
  | close hc =>
    intro hterm
    exact hs hterm

/-- Once every worker's loop has broken, the queue is empty (for a pool
with at least one worker, as every constructible pool has). -/
theorem reaches_queue_empty (n : Nat) (s t : PoolState) (h : Reaches n s t)
    (hs : allTerminated n s → s.queue = []) (ht : allTerminated n t) :
    t.queue = [] := by
  induction h with
  | refl => exact hs ht
  | tail b c hr hstep ih =>
    exact step_queue_empty_inv n b c hstep ih ht

/-- With every worker terminated, no job is running. -/
theorem runningCount_of_terminated (n : Nat) (s : PoolState)
    (ht : allTerminated n s) (j : Job) : runningCount n s j = 0 := by
  unfold runningCount
  rw [Finset.card_eq_zero, Finset.filter_eq_empty_iff]
  intro w hw
  rw [ht w (Finset.mem_range.mp hw)]
  simp

/-- In the initial state, the per-job total is its multiplicity among the
submitted items. -/
theorem totalCount_init (N n : Nat) (j : Job) :
    totalCount n (init N) j = (List.range N).count j := by
  unfold totalCount runningCount loggedJobs init
  simp

end HelloWeb

/-- C5: for every number `N` of submitted work items and every worker
count `n` of a constructible pool (`n > 0`), along any interleaving of
the worker loops and teardown that ends with every worker terminated
(teardown's joins all return), the execution log contains exactly `N`
entries, the executed jobs are exactly the submitted items `0..N-1` (a
permutation), and each submitted item was executed exactly once — the
single log entry holding it names the one worker that ran it. -/
theorem c5_submitted_jobs_execute_exactly_once (N n : Nat)
    (t : HelloWeb.PoolState) (hn : 0 < n)
    (h : HelloWeb.Reaches n (HelloWeb.init N) t)
    (ht : HelloWeb.allTerminated n t) :
    t.log.length = N ∧
    (HelloWeb.loggedJobs t).Perm (List.range N) ∧
    (∀ j, j < N → (HelloWeb.loggedJobs t).count j = 1) := by
  have hq : t.queue = [] := by
    refine HelloWeb.reaches_queue_empty n (HelloWeb.init N) t h ?_ ht
    intro hterm
    have h0 := hterm 0 hn
    simp [HelloWeb.init] at h0
  have hcount : ∀ j, (HelloWeb.loggedJobs t).count j = (List.range N).count j := by
    intro j
    have h1 := HelloWeb.reaches_totalCount n (HelloWeb.init N) t h j
    rw [HelloWeb.totalCount_init] at h1
    unfold HelloWeb.totalCount at h1
    rw [HelloWeb.runningCount_of_terminated n t ht j, hq] at h1
    simpa using h1
  have hperm : (HelloWeb.loggedJobs t).Perm (List.range N) :=
    List.perm_iff_count.mpr hcount
  refine ⟨?_, hperm, ?_⟩
  · have hl := hperm.length_eq
    simpa [HelloWeb.loggedJobs] using hl
  · intro j hj
    rw [hcount j]
    exact List.count_eq_one_of_mem (List.nodup_range N) (List.mem_range.mpr hj)

/-- Witness for C5: one worker, one submitted job, the interleaving
close, receive, run, loop-break; the log then holds exactly job 0. -/
theorem c5_submitted_jobs_execute_exactly_once_witness :
    0 < 1 ∧ HelloWeb.allTerminated 1 HelloWeb.sD ∧
    HelloWeb.sD.log.length = 1 ∧
    (HelloWeb.loggedJobs HelloWeb.sD).Perm (List.range 1) ∧
    (HelloWeb.loggedJobs HelloWeb.sD).count 0 = 1 := by
  have t1 : HelloWeb.Step 1 HelloWeb.sInit HelloWeb.sA :=
    HelloWeb.Step.close HelloWeb.sInit rfl
  have t2 : HelloWeb.Step 1 HelloWeb.sA HelloWeb.sB :=
    HelloWeb.Step.recvOk HelloWeb.sA 0 0 [] (by decide) rfl rfl
  have t3 : HelloWeb.Step 1 HelloWeb.sB HelloWeb.sC :=
    HelloWeb.Step.finish HelloWeb.sB 0 0 (by decide) rfl
  have t4 : HelloWeb.Step 1 HelloWeb.sC HelloWeb.sD :=
    HelloWeb.Step.recvClosed HelloWeb.sC 0 (by decide) rfl rfl rfl
  have tr : HelloWeb.Reaches 1 (HelloWeb.init 1) HelloWeb.sD :=
    HelloWeb.Reaches.tail _ _
      (HelloWeb.Reaches.tail _ _
        (HelloWeb.Reaches.tail _ _
          (HelloWeb.Reaches.tail _ _ HelloWeb.Reaches.refl t1) t2) t3) t4
  have h5 := c5_submitted_jobs_execute_exactly_once 1 1 HelloWeb.sD
    (by decide) tr (by decide)
  exact ⟨by decide, by decide, h5.1, h5.2.1, h5.2.2 0 (by decide)⟩

namespace HelloWeb

/-- After a worker's receive has failed (status `terminated`), one more
step never revives it and never extends its slice of the log. -/
theorem step_after_terminated (n : Nat) (s t : PoolState) (h : Step n s t)
    (w : Nat) (hterm : s.status w = WStatus.terminated) :
    t.status w = WStatus.terminated ∧ logOf t w = logOf s w := by
  cases h with
  | recvOk v j0 q hv hst hq =>
    have hne : w ≠ v := by
      intro he
      rw [he, hst] at hterm
      simp at hterm
    exact ⟨by simp [setStatus, hne, hterm], rfl⟩
  | finish v j0 hv hst =>
    have hne : w ≠ v := by
      intro he
      rw [he, hst] at hterm
      simp at hterm
    refine ⟨by simp [setStatus, hne, hterm], ?_⟩
    unfold logOf
    dsimp only
    rw [List.filter_append]
    simp [Ne.symm hne]
  | recvClosed v hv hst hq hc =>
    by_cases he : w = v
    · rw [he, hst] at hterm
      simp at hterm
    · exact ⟨by simp [setStatus, he, hterm], rfl⟩
  | close hc => exact ⟨hterm, rfl⟩

/-- Terminated is absorbing along any interleaving, and a terminated
worker's slice of the execution log never grows. -/
theorem reaches_after_terminated (n : Nat) (s t : PoolState)
    (h : Reaches n s t) (w : Nat) (hterm : s.status w = WStatus.terminated) :
    t.status w = WStatus.terminated ∧ logOf t w = logOf s w := by
  induction h with
  | refl => exact ⟨hterm, rfl⟩
  | tail b c hr hstep ih =>
    obtain ⟨h1, h2⟩ := ih
    obtain ⟨h3, h4⟩ := step_after_terminated n b c hstep w h1
    exact ⟨h3, h4.trans h2⟩

end HelloWeb

/-- C6: each worker's loop follows Idle → Running → Idle → ... →
Terminated.  First conjunct: one interleaved step changes a given
worker's observable state only by (a) leaving it and its executions
untouched, (b) a successful receive taking Idle to Running on the
dequeued head job, (c) the received job returning, taking Running back
to Idle and logging exactly that execution, or (d) a failed receive
(queue empty and channel closed) taking Idle to Terminated.  Second
conjunct: once a worker's receive has reported failure it stays
terminated and never executes another item — its slice of the log never
grows. -/
theorem c6_worker_loop_state_machine :
    (∀ (n : Nat) (s t : HelloWeb.PoolState) (w : Nat),
      HelloWeb.Step n s t → w < n →
      (t.status w = s.status w ∧ HelloWeb.logOf t w = HelloWeb.logOf s w) ∨
      (∃ j q, s.status w = .idle ∧ s.queue = j :: q ∧
        t.status w = .running j ∧
        HelloWeb.logOf t w = HelloWeb.logOf s w) ∨
      (∃ j, s.status w = .running j ∧ t.status w = .idle ∧
        HelloWeb.logOf t w = HelloWeb.logOf s w ++ [(w, j)]) ∨
      (s.status w = .idle ∧ s.queue = [] ∧ s.closed = true ∧
        t.status w = .terminated ∧
        HelloWeb.logOf t w = HelloWeb.logOf s w)) ∧
    (∀ (n : Nat) (s t : HelloWeb.PoolState) (w : Nat),
      HelloWeb.Reaches n s t → s.status w = .terminated →
      t.status w = .terminated ∧
      HelloWeb.logOf t w = HelloWeb.logOf s w) := by
  constructor
  · intro n s t w hstep hw
    cases hstep with
    | recvOk v j0 q hv hst hq =>
      by_cases he : w = v
      · subst he
        exact Or.inr (Or.inl ⟨j0, q, hst, hq, by simp [HelloWeb.setStatus], rfl⟩)
      · exact Or.inl ⟨by simp [HelloWeb.setStatus, he], rfl⟩
    | finish v j0 hv hst =>
      by_cases he : w = v
      · subst he
        refine Or.inr (Or.inr (Or.inl ⟨j0, hst, by simp [HelloWeb.setStatus], ?_⟩))
        unfold HelloWeb.logOf
        dsimp only
        rw [List.filter_append]
        simp
      · refine Or.inl ⟨by simp [HelloWeb.setStatus, he], ?_⟩
        unfold HelloWeb.logOf
        dsimp only
        rw [List.filter_append]
        simp [Ne.symm he]
    | recvClosed v hv hst hq hc =>
      by_cases he : w = v
      · subst he
        exact Or.inr (Or.inr (Or.inr
          ⟨hst, hq, hc, by simp [HelloWeb.setStatus], rfl⟩))
      · exact Or.inl ⟨by simp [HelloWeb.setStatus, he], rfl⟩
    | close hc => exact Or.inl ⟨rfl, rfl⟩
  · intro n s t w hr hterm
    exact HelloWeb.reaches_after_terminated n s t hr w hterm

/-- Witness for C6: the close step instantiates the per-step
characterization at worker 0; the terminated final state of the concrete
run instantiates the absorption property. -/
theorem c6_worker_loop_state_machine_witness :
    HelloWeb.Step 1 HelloWeb.sInit HelloWeb.sA ∧ 0 < 1 ∧
    ((HelloWeb.sA.status 0 = HelloWeb.sInit.status 0 ∧
        HelloWeb.logOf HelloWeb.sA 0 = HelloWeb.logOf HelloWeb.sInit 0) ∨
      (∃ j q, HelloWeb.sInit.status 0 = .idle ∧
        HelloWeb.sInit.queue = j :: q ∧ HelloWeb.sA.status 0 = .running j ∧
        HelloWeb.logOf HelloWeb.sA 0 = HelloWeb.logOf HelloWeb.sInit 0) ∨
      (∃ j, HelloWeb.sInit.status 0 = .running j ∧
        HelloWeb.sA.status 0 = .idle ∧
        HelloWeb.logOf HelloWeb.sA 0 =
          HelloWeb.logOf HelloWeb.sInit 0 ++ [(0, j)]) ∨
      (HelloWeb.sInit.status 0 = .idle ∧ HelloWeb.sInit.queue = [] ∧
        HelloWeb.sInit.closed = true ∧ HelloWeb.sA.status 0 = .terminated ∧
        HelloWeb.logOf HelloWeb.sA 0 = HelloWeb.logOf HelloWeb.sInit 0)) ∧
    (HelloWeb.sD.status 0 = .terminated ∧
      HelloWeb.sD.status 0 = .terminated ∧
      HelloWeb.logOf HelloWeb.sD 0 = HelloWeb.logOf HelloWeb.sD 0) := by
  have hstep : HelloWeb.Step 1 HelloWeb.sInit HelloWeb.sA :=
    HelloWeb.Step.close HelloWeb.sInit rfl
  exact ⟨hstep, by decide,
    c6_worker_loop_state_machine.1 1 _ _ 0 hstep (by decide), rfl,
    c6_worker_loop_state_machine.2 1 HelloWeb.sD HelloWeb.sD 0
      HelloWeb.Reaches.refl rfl⟩
